import Mathlib

/-!
Verification of the Skytap rolling-window HYSPLIT orchestration pipeline.

Shallow embedding of the repository's Python sources:
  * `HYSPLIT_Controller.py` / `HYSPLIT_Prep.py` - coverage calculator
    (`get_date_range`), job materializer (`make_run_dir`, `write_control`,
    `make_run_dirs`);
  * `HYSPLIT_Runner.py` - per-job executor (`run_hysplit_in_dir`) and the
    batch collector (`HysplitRunner`);
  * `Skytap_Controller.py` - window-manager control loop (`main`).

`datetime` values are embedded as `Int` hours since 1970-01-01 00:00 UTC
(the proleptic Gregorian calendar, as Python's `datetime` uses); a
`timedelta(hours = k)` is `+ k`.  Fallible Python code (exceptions) is
embedded with `Option`/`Except`: an exception is an `Except.error` carrying
the exception message.
-/

/-! ## Calendar arithmetic (Python `datetime` semantics)

`daysFromCivil` is the standard civil-calendar day count (days since
1970-01-01) for the proleptic Gregorian calendar; `civilFromDays` is its
inverse.  `Int.fdiv` is floor division, matching Python's `//`. -/

def isLeap (y : Int) : Bool :=
  (y % 4 == 0 && y % 100 != 0) || (y % 400 == 0)

def daysInMonth (y m : Int) : Int :=
  if m = 2 then (if isLeap y then 29 else 28)
  else if m = 4 ∨ m = 6 ∨ m = 9 ∨ m = 11 then 30
  else 31

def daysFromCivil (y m d : Int) : Int :=
  let y' := if m ≤ 2 then y - 1 else y
  let era := Int.fdiv y' 400
  let yoe := y' - era * 400
  let mp := if 2 < m then m - 3 else m + 9
  let doy := Int.fdiv (153 * mp + 2) 5 + d - 1
  let doe := yoe * 365 + Int.fdiv yoe 4 - Int.fdiv yoe 100 + doy
  era * 146097 + doe - 719468

def civilFromDays (z : Int) : Int × Int × Int :=
  let z' := z + 719468
  let era := Int.fdiv z' 146097
  let doe := z' - era * 146097
  let yoe := Int.fdiv (doe - Int.fdiv doe 1460 + Int.fdiv doe 36524 - Int.fdiv doe 146096) 365
  let y := yoe + era * 400
  let doy := doe - (365 * yoe + Int.fdiv yoe 4 - Int.fdiv yoe 100)
  let mp := Int.fdiv (5 * doy + 2) 153
  let d := doy - Int.fdiv (153 * mp + 2) 5 + 1
  let m := if mp < 10 then mp + 3 else mp - 9
  (if m ≤ 2 then y + 1 else y, m, d)

def hoursOfYmdh (y m d h : Int) : Int :=
  daysFromCivil y m d * 24 + h

/-! ## Python string primitives used by the sources -/

/-- Python `pat in s` (substring test). -/
def strContains (s pat : String) : Bool :=
  (List.range (s.data.length + 1)).any fun i => pat.data.isPrefixOf (s.data.drop i)

/-- Python `s[-n:]`: the last `n` characters (whole string when shorter). -/
def strTakeLast (s : String) (n : Nat) : String :=
  String.mk (s.data.drop (s.data.length - n))

/-- Python `s[:-1]`: all but the last character. -/
def strDropLast (s : String) : String :=
  String.mk s.data.dropLast

/-- Python `s[:n]`: the first `n` characters. -/
def strTakeFirst (s : String) (n : Nat) : String :=
  String.mk (s.data.take n)

/-- Scanning loop of Python `s.split(sep)` for non-empty `sep`: split at
every (leftmost, non-overlapping) occurrence.  The `fuel` argument only
drives the recursion; every step consumes at least one character, so
`fuel = length + 1` never runs out. -/
def splitOnGo (sep : List Char) : Nat → List Char → List (List Char)
  | _, [] => [[]]
  | 0, cs => [cs]
  | fuel + 1, c :: cs =>
    if sep.isPrefixOf (c :: cs) then
      [] :: splitOnGo sep fuel ((c :: cs).drop sep.length)
    else
      match splitOnGo sep fuel cs with
      | [] => [[c]]
      | h :: t => (c :: h) :: t

/-- Python `s.split(sep)` (non-empty separator). -/
def pySplit (s sep : String) : List String :=
  (splitOnGo sep.data (s.data.length + 1) s.data).map String.mk

def natOfDigits (cs : List Char) : Nat :=
  cs.foldl (fun a c => a * 10 + (c.toNat - 48)) 0

/-- `datetime.strptime(s, "%Y%m%d%H")`, as hours since epoch: ten digits,
year 1..9999, valid month/day, hour 0..23; anything else raises
(`none`). -/
def strptimeYmdH (s : String) : Option Int :=
  let cs := s.data
  if cs.length = 10 ∧ cs.all Char.isDigit then
    let y : Int := natOfDigits (cs.take 4)
    let mo : Int := natOfDigits ((cs.drop 4).take 2)
    let d : Int := natOfDigits ((cs.drop 6).take 2)
    let h : Int := natOfDigits ((cs.drop 8).take 2)
    if 1 ≤ y ∧ y ≤ 9999 ∧ 1 ≤ mo ∧ mo ≤ 12 ∧ 1 ≤ d ∧ d ≤ daysInMonth y mo ∧ h ≤ 23 then
      some (hoursOfYmdh y mo d h)
    else none
  else none

/-- `datetime.strptime(s, "%Y-%m-%d")` (midnight), as hours since epoch. -/
def strptimeDate (s : String) : Option Int :=
  match pySplit s "-" with
  | [ys, ms, ds] =>
    if ys.data.length = 4 ∧ ms.data.length = 2 ∧ ds.data.length = 2 ∧
        ys.data.all Char.isDigit ∧ ms.data.all Char.isDigit ∧ ds.data.all Char.isDigit then
      strptimeYmdH (ys ++ ms ++ ds ++ "00")
    else none
  | _ => none

/-- Zero-padded decimal rendering of a nonnegative `Int` (Python `%02d` etc.). -/
def padNum (w : Nat) (n : Int) : String :=
  let s := toString n.toNat
  String.mk (List.replicate (w - s.data.length) '0' ++ s.data)

/-- Python `f"{t:%Y%m%d_%H}"` on an hour timestamp. -/
def fmtYmdH (t : Int) : String :=
  let day := Int.fdiv t 24
  let h := t - day * 24
  let c := civilFromDays day
  padNum 4 c.1 ++ padNum 2 c.2.1 ++ padNum 2 c.2.2 ++ "_" ++ padNum 2 h

/-! ## Coverage Calculator: `get_date_range`

Two variants exist in the repository.  `HYSPLIT_Controller.get_date_range`
(lines 44-107) guards the empty input; `HYSPLIT_Prep.get_date_range`
(lines 21-85) is identical except that it has no such guard, so Python's
`min([])` raises `ValueError` there. -/

/-- Timestamp extraction for one met filename (the body of the parsing loop
shared by both `get_date_range` variants).  Old convention:
`... hysplit.YYYYMMDD.HHz.*`; new convention: `...YYYYMMDD_HH-xx_hrrr`.
`none` models the `ValueError`/`IndexError` raised on a malformed name. -/
def parseMetFile (mf : String) : Option Int :=
  if strContains mf "hysplit." then
    -- mf = mf[-19:]; parts = mf.split("."); strptime(parts[1] + parts[2][:-1])
    let t := strTakeLast mf 19
    let parts := pySplit t "."
    match parts.get? 1, parts.get? 2 with
    | some date_str, some time_str => strptimeYmdH (date_str ++ strDropLast time_str)
    | _, _ => none
  else
    -- mf = mf[-19:]; parts = mf.split("_"); strptime(parts[0] + parts[1][:2])
    let t := strTakeLast mf 19
    let parts := pySplit t "_"
    match parts.get? 0, parts.get? 1 with
    | some date_str, some time_str => strptimeYmdH (date_str ++ strTakeFirst time_str 2)
    | _, _ => none

/-- The `for mf in met_files` parsing loop: collects `file_start_times`;
the first malformed name raises (`none`). -/
def parseAllMet : List String → Option (List Int)
  | [] => some []
  | mf :: rest =>
    match parseMetFile mf with
    | none => none
    | some t =>
      match parseAllMet rest with
      | none => none
      | some ts => some (t :: ts)

/-- Python `min(l)`: `none` (a raised `ValueError`) on the empty list. -/
def pyMin : List Int → Option Int
  | [] => none
  | x :: xs => some (xs.foldl min x)

/-- Python `max(l)`: `none` (a raised `ValueError`) on the empty list. -/
def pyMax : List Int → Option Int
  | [] => none
  | x :: xs => some (xs.foldl max x)

/-- Iterations of the accumulation loop
`while t <= latest_valid: valid_hours.append(t); t += 1h`, indexed by the
remaining iteration count. -/
def hourRangeGo : Nat → Int → List Int
  | 0, _ => []
  | n + 1, t => t :: hourRangeGo n (t + 1)

/-- The accumulation loop itself: starting at `t = a`, it runs once per hour
while `t ≤ b`, i.e. exactly `(b + 1 - a).toNat` times. -/
def hourRange (a b : Int) : List Int :=
  hourRangeGo (b + 1 - a).toNat a

/-- `HYSPLIT_Controller.get_date_range` (lines 44-107). -/
def get_date_range_ctrl (met_files : List String) : Except String (List Int) :=
  match parseAllMet met_files with
  | none => Except.error "ValueError: time data does not match format %Y%m%d%H"
  | some file_start_times =>
    if file_start_times.isEmpty then Except.ok []
    else
      let file_end_times := file_start_times.map (· + 5)
      match pyMin file_start_times, pyMax file_end_times with
      | some mn, some mx => Except.ok (hourRange (mn + 12) mx)
      | _, _ => Except.error "ValueError: min() arg is an empty sequence"

/-- `HYSPLIT_Prep.get_date_range` (lines 21-85): no empty-input guard, so
`min(file_start_times)` raises on an empty artifact list. -/
def get_date_range_prep (met_files : List String) : Except String (List Int) :=
  match parseAllMet met_files with
  | none => Except.error "ValueError: time data does not match format %Y%m%d%H"
  | some file_start_times =>
    let file_end_times := file_start_times.map (· + 5)
    match pyMin file_start_times, pyMax file_end_times with
    | some mn, some mx => Except.ok (hourRange (mn + 12) mx)
    | _, _ => Except.error "ValueError: min() arg is an empty sequence"

/-! ## Job Materializer: `make_run_dir`, `write_control`, `make_run_dirs`

From `HYSPLIT_Controller.py` (lines 110-216).  A site's registry entry in
`Config.yaml` (`cfg['site_hysplit_configs'][site]`); decimal configuration
numbers are embedded as `Rat` (their decimal rendering in the CONTROL file
is not re-modelled: the descriptor is kept as a structured record whose
fields are in bijection with the file's lines). -/

structure SiteCfg where
  name : String
  start_date : String -- "%Y-%m-%d"
  end_date : String -- "%Y-%m-%d"
  lat : Rat
  lon : Rat
  start_height : Rat
  duration : Int
deriving DecidableEq, Repr

structure HysplitCfg where
  met_dir : String
  top_of_model : Rat
  vert_motion : Int
deriving DecidableEq, Repr

/-- One written CONTROL descriptor, line by line:
start time; `1`; `lat lon height`; duration; vertical-motion flag; top of
domain; met-file count (the length of `met_entries`); per met file the
directory line and the filename line; output directory `./`; output
filename. -/
structure ControlFile where
  start_time : Int
  n_locs : Nat
  lat : Rat
  lon : Rat
  height_m : Rat
  duration_h : Int
  vert_motion : Int
  top_agl_m : Rat
  met_entries : List (String × String)
  out_dir : String
  out_name : String
deriving DecidableEq, Repr

/-- Insertion step for Python `sorted` on strings (lexicographic). -/
def insertLe (x : String) : List String → List String
  | [] => [x]
  | y :: ys => if x ≤ y then x :: y :: ys else y :: insertLe x ys

/-- Python `sorted` on strings.  For a total order the result is the unique
sorted arrangement, so insertion sort coincides with Python's sort. -/
def pySorted : List String → List String
  | [] => []
  | x :: xs => insertLe x (pySorted xs)

/-- Python `str(run_dir).split("/")[-1]`. -/
def lastPathComponent (p : String) : String :=
  (pySplit p "/").getLastD ""

/-- The met-file filter of `write_control` (line 171):
`sorted([mf for mf in os.listdir(met_dir) if 'hrrr' in mf])`, with
`met_listing` standing for `os.listdir(met_dir)`. -/
def metFilter (met_listing : List String) : List String :=
  pySorted (met_listing.filter fun mf => strContains mf "hrrr")

/-- `HYSPLIT_Controller.write_control` (lines 122-187).  `met_listing` is
the directory listing of `met_dir`.  The `FileNotFoundError` raised when no
ARL file matches the filter is the `Except.error` case (the half-written
descriptor left behind by the Python exception is not modelled). -/
def write_control (run_dir : String) (start_time : Int) (lat lon height_m : Rat)
    (duration_h : Int) (met_dir : String) (met_listing : List String)
    (top_agl_m : Rat) (vert_motion : Int) : Except String ControlFile :=
  let met_files := metFilter met_listing
  if met_files.isEmpty then
    Except.error ("No ARL data files found in " ++ met_dir ++ ". HYSPLIT cannot run without met data.")
  else
    Except.ok
      { start_time := start_time
        n_locs := 1
        lat := lat
        lon := lon
        height_m := height_m
        duration_h := duration_h
        vert_motion := vert_motion
        top_agl_m := top_agl_m
        met_entries := met_files.map fun mf => ("../../" ++ met_dir ++ "/", mf)
        out_dir := "./"
        out_name := lastPathComponent run_dir }

/-- `make_run_dir`'s run-directory name: `f"{site_abbr}_{start_time:%Y%m%d_%H}"`. -/
def runName (site_abbr : String) (start_time : Int) : String :=
  site_abbr ++ "_" ++ fmtYmdH start_time

/-- The inner `for dt in valid_datetimes: write_control(make_run_dir(site, dt), ...)`
loop of `make_run_dirs`, returning the created jobs as
(run-directory name, descriptor) pairs. -/
def writeJobs (temp_root : String) (s : SiteCfg) (hcfg : HysplitCfg)
    (met_listing : List String) : List Int → Except String (List (String × ControlFile))
  | [] => Except.ok []
  | dt :: ds =>
    match write_control (temp_root ++ "/" ++ runName s.name dt) dt s.lat s.lon
        s.start_height s.duration hcfg.met_dir met_listing hcfg.top_of_model hcfg.vert_motion with
    | Except.error e => Except.error e
    | Except.ok cf =>
      match writeJobs temp_root s hcfg met_listing ds with
      | Except.error e => Except.error e
      | Except.ok js => Except.ok ((runName s.name dt, cf) :: js)

/-- The `for site in cfg['site_hysplit_configs']` loop of `make_run_dirs`
(lines 194-214): per site, parse its date range (a malformed date raises),
test `start <= valid_datetimes[0] and end >= valid_datetimes[-1]`, and if it
holds write one CONTROL per valid datetime.  An exception anywhere aborts
the whole loop. -/
def makeRunDirsGo (temp_root : String) (hcfg : HysplitCfg) (met_listing : List String)
    (vtp : List Int) (v0 vlast : Int) : List SiteCfg → Except String (List (String × ControlFile))
  | [] => Except.ok []
  | s :: ss =>
    match strptimeDate s.start_date, strptimeDate s.end_date with
    | some sd, some ed =>
      if sd ≤ v0 ∧ vlast ≤ ed then
        match writeJobs temp_root s hcfg met_listing vtp with
        | Except.error e => Except.error e
        | Except.ok js =>
          match makeRunDirsGo temp_root hcfg met_listing vtp v0 vlast ss with
          | Except.error e => Except.error e
          | Except.ok rest => Except.ok (js ++ rest)
      else makeRunDirsGo temp_root hcfg met_listing vtp v0 vlast ss
    | _, _ => Except.error "ValueError: time data does not match format %Y-%m-%d"

/-- `HYSPLIT_Controller.make_run_dirs` (lines 189-216).  On an empty
`valid_datetimes` the subscript `valid_datetimes[0]` raises `IndexError`. -/
def make_run_dirs (temp_root : String) (sites : List SiteCfg) (hcfg : HysplitCfg)
    (met_listing : List String) (vtp : List Int) : Except String (List (String × ControlFile)) :=
  match vtp with
  | [] => Except.error "IndexError: list index out of range"
  | v0 :: rest => makeRunDirsGo temp_root hcfg met_listing (v0 :: rest) v0 (rest.getLastD v0) sites

/-! ## Filesystem model for idempotence (claim on re-materialization)

`make_run_dir` calls `Path.mkdir(parents=True, exist_ok=True)` and
`write_control` opens the descriptor with mode `"w"` (truncate/overwrite).
The directory tree is modelled as the list of run-directory names plus a
map from descriptor paths to descriptor contents. -/

structure FileSys where
  dirs : List String
  files : List (String × ControlFile)
deriving DecidableEq, Repr

/-- `mkdir(parents=True, exist_ok=True)`: no error and no duplicate when the
directory already exists. -/
def mkdirP (fs : FileSys) (d : String) : FileSys :=
  if d ∈ fs.dirs then fs else { fs with dirs := fs.dirs ++ [d] }

/-- `open(path, "w")` + write: truncates any existing file at `path`. -/
def fsWrite (fs : FileSys) (p : String) (c : ControlFile) : FileSys :=
  { fs with files := (fs.files.filter fun e => e.1 ≠ p) ++ [(p, c)] }

/-- `HYSPLIT_Controller.make_run_dir` (lines 110-119) as a filesystem step:
create `{site}_{YYYYMMDD}_{HH}` (idempotently) and return its name. -/
def make_run_dir_fs (fs : FileSys) (site_abbr : String) (start_time : Int) :
    FileSys × String :=
  let run_name := runName site_abbr start_time
  (mkdirP fs run_name, run_name)

/-- `write_control` as a filesystem step: `run_dir.mkdir(...)`, then write
the descriptor at `run_dir/CONTROL` (overwriting); raising when no met file
matches the filter. -/
def write_control_fs (fs : FileSys) (run_dir : String) (start_time : Int)
    (lat lon height_m : Rat) (duration_h : Int) (met_dir : String)
    (met_listing : List String) (top_agl_m : Rat) (vert_motion : Int) :
    Except String FileSys :=
  match write_control run_dir start_time lat lon height_m duration_h met_dir
      met_listing top_agl_m vert_motion with
  | Except.error e => Except.error e
  | Except.ok cf => Except.ok (fsWrite (mkdirP fs run_dir) (run_dir ++ "/CONTROL") cf)

/-- One materialization of a (site, time-point) pair, as performed by the
`make_run_dirs` loop body: `write_control(make_run_dir(site, dt), dt, ...)`. -/
def materialize (fs : FileSys) (s : SiteCfg) (hcfg : HysplitCfg)
    (met_listing : List String) (dt : Int) : Except String FileSys :=
  let md := make_run_dir_fs fs s.name dt
  write_control_fs md.1 md.2 dt s.lat s.lon s.start_height s.duration
    hcfg.met_dir met_listing hcfg.top_of_model hcfg.vert_motion

/-! ## Parallel Job Executor: `run_hysplit_in_dir` and `HysplitRunner`

From `HYSPLIT_Runner.py`.  A job's run-time environment (what the worker
observes of the directory and the subprocess) is abstracted into `JobEnv`;
the subprocess call is a black box returning an exit code, a timeout, or a
missing-executable error.  `outfile_size` is the size of the declared
output artifact (named after the run directory) after the subprocess
returned, `none` when the file does not exist; the pre-run cleanup of stale
outputs (lines 70-74) guarantees the file can only stem from this run.
The function's `print` diagnostics are modelled as an explicit event log,
in emission order. -/

inductive SubOutcome where
  | timeout
  | exeNotFound (msg : String)
  | exited (rc : Int)
deriving DecidableEq, Repr

structure JobEnv where
  name : String
  ctl_exists : Bool
  outcome : SubOutcome
  outfile_size : Option Nat
  stderr_text : String
  message_text : Option String
deriving Repr

/-- The value returned by `run_hysplit_in_dir`: the early-exit paths
(missing CONTROL, timeout, executable not found; lines 65, 96, 98) return a
3-tuple `(run_dir.name, code, msg)`, while the post-subprocess paths
(lines 116, 127) return a 4-tuple `(run_dir, run_dir.name, rc, msg)`
(`run_dir` is rendered by its name). -/
inductive RunResult where
  | three (name : String) (code : Int) (msg : String)
  | four (dir : String) (name : String) (rc : Int) (msg : String)
deriving DecidableEq, Repr

inductive RunLog where
  | startLine
  | timeoutLine
  | warnSmall (size : Nat)
  | msgDump (content : String)
  | endOk (rc : Int)
  | endFail (rc : Int)
deriving DecidableEq, Repr

/-- Python `s[-2000:]`. -/
def tail2000 (s : String) : String :=
  String.mk (s.data.drop (s.data.length - 2000))

/-- `HYSPLIT_Runner.run_hysplit_in_dir` (lines 49-127), with default
`timeout_s = 600`.  Returns the function's result together with its printed
log events. -/
def run_hysplit_in_dir (j : JobEnv) : RunResult × List RunLog :=
  if j.ctl_exists = false then
    (RunResult.three j.name 999 "Missing CONTROL", [RunLog.startLine])
  else
    match j.outcome with
    | SubOutcome.timeout =>
      (RunResult.three j.name 124 "Timeout after 600s", [RunLog.startLine, RunLog.timeoutLine])
    | SubOutcome.exeNotFound msg =>
      (RunResult.three j.name 127 ("Executable not found: " ++ msg), [RunLog.startLine])
    | SubOutcome.exited rc =>
      match j.outfile_size with
      | some size =>
        if rc = 0 ∧ 0 < size then
          -- success branch (lines 105-116), with the small-output warning
          let warn : List RunLog :=
            if size < 500 then
              RunLog.warnSmall size ::
                (match j.message_text with
                 | some m => [RunLog.msgDump m]
                 | none => [])
            else []
          (RunResult.four j.name j.name 0 "OK",
            [RunLog.startLine] ++ warn ++ [RunLog.endOk 0])
        else
          -- failure branch (lines 119-127)
          let debug := tail2000 j.stderr_text
          let debug :=
            if debug = "" then
              match j.message_text with
              | some m => tail2000 m
              | none => ""
            else debug
          (RunResult.four j.name j.name rc
              (if debug = "" then "No debug output or output file missing" else debug),
            [RunLog.startLine, RunLog.endFail rc])
      | none =>
        let debug := tail2000 j.stderr_text
        let debug :=
          if debug = "" then
            match j.message_text with
            | some m => tail2000 m
            | none => ""
          else debug
        (RunResult.four j.name j.name rc
            (if debug = "" then "No debug output or output file missing" else debug),
          [RunLog.startLine, RunLog.endFail rc])

/-- The tuple unpacking `run_dir, name, rc, debug = fut.result()`
(line 151): a 3-tuple result raises `ValueError`. -/
def unpack4 : RunResult → Except String (String × String × Int × String)
  | RunResult.three _ _ _ =>
    Except.error "ValueError: not enough values to unpack (expected 4, got 3)"
  | RunResult.four d n rc m => Except.ok (d, n, rc, m)

/-- The `for fut in as_completed(futures)` collection loop of
`HysplitRunner` (lines 148-175): per result, unpack four values and count
`ok` when `rc == 0`, else `fail`; an unhandled exception aborts the loop
(and the final aggregate line is never printed). -/
def collectResults : List RunResult → Nat → Nat → Except String (Nat × Nat)
  | [], ok, fail => Except.ok (ok, fail)
  | r :: rs, ok, fail =>
    match unpack4 r with
    | Except.error e => Except.error e
    | Except.ok (_, _, rc, _) =>
      if rc = 0 then collectResults rs (ok + 1) fail
      else collectResults rs ok (fail + 1)

/-- `HYSPLIT_Runner.HysplitRunner` (lines 129-177), restricted to outcome
classification and aggregation: run every job and collect the
succeeded/failed counts.  `Except.error` is an exception escaping the
collection loop: the batch summary is never produced. -/
def HysplitRunner_agg (jobs : List JobEnv) : Except String (Nat × Nat) :=
  collectResults (jobs.map fun j => (run_hysplit_in_dir j).1) 0 0

/-! ## Window Manager: `Skytap_Controller.main`

The processing loop (lines 411-524) with `--yes` (auto-confirm) and
successful subprocess/download collaborators.  The global URL list
`all_urls` is fixed; the met directory's contents are tracked by
`on_disk_urls` exactly as the code does (`delete_files` removes the oldest
`step`, the downloader adds `new_batch`).  Every `PROCESS` phase is
recorded in a trace as the pair (cursor at phase start, URLs on disk). -/

/-- Python slice `xs[a : b]` for `0 ≤ a ≤ b` (clamped at the length). -/
def pySlice (xs : List String) (a b : Nat) : List String :=
  (xs.drop a).take (b - a)

structure LoopState where
  current_idx : Nat
  on_disk : List String
  persisted : Nat
deriving DecidableEq, Repr

/-- The `while True` loop of `main` (lines 468-524), fuel-indexed (`none`
means the fuel ran out before the loop finished).  Per iteration: record
the `PROCESS` phase; if `current_idx + window_size >= total_files` persist
`total_files` and stop; else delete the `step` oldest files, advance and
persist the cursor, compute the next download slice
`all_urls[current_idx + (window_size - step) : current_idx + window_size]`,
stop if it is empty, else download it and continue. -/
def skytapLoop (all_urls : List String) (window_size step : Nat) :
    Nat → LoopState → Option (LoopState × List (Nat × List String))
  | 0, _ => none
  | fuel + 1, s =>
    let total_files := all_urls.length
    let entry := (s.current_idx, s.on_disk)
    if total_files ≤ s.current_idx + window_size then
      some ({ s with persisted := total_files }, [entry])
    else
      let ci := s.current_idx + step
      let dl_start := ci + (window_size - step)
      let dl_end := ci + window_size
      let new_batch := pySlice all_urls dl_start dl_end
      if new_batch.isEmpty then
        some ({ current_idx := ci, on_disk := s.on_disk.drop step, persisted := ci }, [entry])
      else
        match skytapLoop all_urls window_size step fuel
            { current_idx := ci, on_disk := s.on_disk.drop step ++ new_batch, persisted := ci } with
        | none => none
        | some (sf, tr) => some (sf, entry :: tr)

structure InitResult where
  current_idx : Nat
  persisted : Nat
  first_batch : List String
deriving DecidableEq, Repr

/-- The resume section of `main` (lines 431-454) under `--yes`: load the
saved cursor; if it reached the total count, reset the persisted cursor to
0; otherwise resume from it; then slice the initial window
`all_urls[current_idx : min(current_idx + window_size, total_files)]`. -/
def mainInit (all_urls : List String) (window_size saved_idx : Nat) : InitResult :=
  let total_files := all_urls.length
  let current_idx :=
    if 0 < saved_idx then (if total_files ≤ saved_idx then 0 else saved_idx) else 0
  let persisted :=
    if 0 < saved_idx ∧ total_files ≤ saved_idx then 0 else saved_idx
  let batch_end := min (current_idx + window_size) total_files
  { current_idx := current_idx
    persisted := persisted
    first_batch := pySlice all_urls current_idx batch_end }

/-- `main`'s processing phase end to end (lines 431-524): initialize/resume,
return immediately when the initial batch is empty (`"No files to
download."`), else download it and enter the loop. -/
def skytapMain (all_urls : List String) (window_size step saved_idx fuel : Nat) :
    Option (LoopState × List (Nat × List String)) :=
  let ir := mainInit all_urls window_size saved_idx
  if ir.first_batch.isEmpty then
    some ({ current_idx := ir.current_idx, on_disk := [], persisted := ir.persisted }, [])
  else
    skytapLoop all_urls window_size step fuel
      { current_idx := ir.current_idx, on_disk := ir.first_batch, persisted := ir.persisted }

/-! ## Concrete fixtures used by witnesses and counterexamples -/

/-- The meteorological file list of the spec's worked example: three
artifacts dated 2019-06-13 at 00, 06, 12 UTC in the old naming convention
(nominal hours 433440, 433446, 433452 since epoch). -/
def exMetFiles : List String :=
  ["hysplit.20190613.00z.hrrra", "hysplit.20190613.06z.hrrra", "hysplit.20190613.12z.hrrra"]

/-- A job whose subprocess exits 0 with a 300-byte output file. -/
def exJobOk : JobEnv :=
  { name := "ECC_20190613_12", ctl_exists := true, outcome := SubOutcome.exited 0,
    outfile_size := some 300, stderr_text := "", message_text := none }

/-- A job whose subprocess exceeds the 600 s timeout. -/
def exJobTimeout : JobEnv :=
  { name := "PAO_20190613_13", ctl_exists := true, outcome := SubOutcome.timeout,
    outfile_size := none, stderr_text := "", message_text := none }

/-- The end-to-end scenario's artifact list: `N = 10` identifiers. -/
def scenarioUrls : List String :=
  ["u0", "u1", "u2", "u3", "u4", "u5", "u6", "u7", "u8", "u9"]

/-- The descriptor record written by a successful `write_control`. -/
def controlFor (run_dir : String) (start_time : Int) (lat lon height_m : Rat)
    (duration_h : Int) (met_dir : String) (met_listing : List String)
    (top_agl_m : Rat) (vert_motion : Int) : ControlFile :=
  { start_time := start_time
    n_locs := 1
    lat := lat
    lon := lon
    height_m := height_m
    duration_h := duration_h
    vert_motion := vert_motion
    top_agl_m := top_agl_m
    met_entries := (metFilter met_listing).map fun mf => ("../../" ++ met_dir ++ "/", mf)
    out_dir := "./"
    out_name := lastPathComponent run_dir }

/-- A registry site used in concrete runs: ECC, 2019-01-01 .. 2020-12-31. -/
def exSiteA : SiteCfg :=
  { name := "AAA", start_date := "2019-01-01", end_date := "2020-12-31",
    lat := 40, lon := -105, start_height := 10, duration := -12 }

def exSiteB : SiteCfg :=
  { name := "BBB", start_date := "2019-01-01", end_date := "2020-12-31",
    lat := 41, lon := -104, start_height := 15, duration := -12 }

def exHcfg : HysplitCfg :=
  { met_dir := "ARL_Files", top_of_model := 10000, vert_motion := 0 }

theorem hourRangeGo_eq_map (n : Nat) :
    ∀ a : Int, hourRangeGo n a = (List.range n).map (fun k => a + Int.ofNat k) := by
  induction n with
  | zero => intro a; rfl
  | succ m ih =>
    intro a
    rw [hourRangeGo, ih (a + 1), List.range_succ_eq_map, List.map_cons, List.map_map]
    refine List.cons_eq_cons.mpr ⟨by simp, ?_⟩
    apply List.map_congr_left
    intro k _
    simp only [Function.comp_apply, Nat.succ_eq_add_one, Int.ofNat_add, Int.ofNat_eq_coe]
    push_cast
    ring

theorem hourRange_eq_map (a b : Int) :
    hourRange a b = (List.range (b + 1 - a).toNat).map (fun k => a + Int.ofNat k) := by
  rw [hourRange, hourRangeGo_eq_map]

theorem mem_hourRange (t a b : Int) : t ∈ hourRange a b ↔ a ≤ t ∧ t ≤ b := by
  rw [hourRange_eq_map]
  simp only [List.mem_map, List.mem_range]
  constructor
  · rintro ⟨k, hk, rfl⟩
    simp only [Int.ofNat_eq_coe]
    omega
  · rintro ⟨h1, h2⟩
    refine ⟨(t - a).toNat, by omega, ?_⟩
    simp only [Int.ofNat_eq_coe]
    omega

theorem length_hourRange (a b : Int) : (hourRange a b).length = (b + 1 - a).toNat := by
  rw [hourRange_eq_map]
  simp

theorem chain'_hourRange (a b : Int) :
    List.Chain' (fun x y => y = x + 1) (hourRange a b) := by
  rw [hourRange_eq_map, List.chain'_map]
  rcases n : (b + 1 - a).toNat with _ | m
  · exact List.chain'_nil
  · rw [List.chain'_range_succ]
    intro k _
    simp only [Int.ofNat_eq_coe, Nat.succ_eq_add_one]
    push_cast
    ring

theorem pairwise_lt_hourRange (a b : Int) :
    List.Pairwise (· < ·) (hourRange a b) := by
  rw [hourRange_eq_map, List.pairwise_map]
  apply (List.pairwise_lt_range _).imp
  intro x y h
  simp only [Int.ofNat_eq_coe]
  omega

theorem foldl_min_spec (s0 : Int) (rest : List Int) :
    rest.foldl min s0 ∈ s0 :: rest ∧ ∀ x ∈ s0 :: rest, rest.foldl min s0 ≤ x := by
  induction rest generalizing s0 with
  | nil => simp
  | cons r rs ih =>
    obtain ⟨hmem, hle⟩ := ih (min s0 r)
    simp only [List.foldl_cons]
    constructor
    · rcases List.mem_cons.mp hmem with h | h
      · rcases min_choice s0 r with hc | hc
        · rw [h, hc]; exact List.mem_cons_self _ _
        · rw [h, hc]; exact List.mem_cons_of_mem _ (List.mem_cons_self _ _)
      · exact List.mem_cons_of_mem _ (List.mem_cons_of_mem _ h)
    · intro x hx
      rcases List.mem_cons.mp hx with rfl | hx'
      · exact le_trans (hle _ (List.mem_cons_self _ _)) (min_le_left x r)
      rcases List.mem_cons.mp hx' with rfl | h
      · exact le_trans (hle _ (List.mem_cons_self _ _)) (min_le_right s0 x)
      · exact hle _ (List.mem_cons_of_mem _ h)

theorem foldl_max_spec (s0 : Int) (rest : List Int) :
    rest.foldl max s0 ∈ s0 :: rest ∧ ∀ x ∈ s0 :: rest, x ≤ rest.foldl max s0 := by
  induction rest generalizing s0 with
  | nil => simp
  | cons r rs ih =>
    obtain ⟨hmem, hle⟩ := ih (max s0 r)
    simp only [List.foldl_cons]
    constructor
    · rcases List.mem_cons.mp hmem with h | h
      · rcases max_choice s0 r with hc | hc
        · rw [h, hc]; exact List.mem_cons_self _ _
        · rw [h, hc]; exact List.mem_cons_of_mem _ (List.mem_cons_self _ _)
      · exact List.mem_cons_of_mem _ (List.mem_cons_of_mem _ h)
    · intro x hx
      rcases List.mem_cons.mp hx with rfl | hx'
      · exact le_trans (le_max_left x r) (hle _ (List.mem_cons_self _ _))
      rcases List.mem_cons.mp hx' with rfl | h
      · exact le_trans (le_max_right s0 x) (hle _ (List.mem_cons_self _ _))
      · exact hle _ (List.mem_cons_of_mem _ h)

/-! ## Claim theorems: Coverage Calculator -/

/-- C1 (amended).  For every artifact list whose identifiers all parse
(`file_start_times = s0 :: rest`), both `get_date_range` variants return
the inclusive hourly sequence from `min(file_start_times) + 12` (lookback
`L = 12`) to `max(file_end_times) = max(file_start_times) + 5` (forward
coverage `F = 5`): every hour between those bounds occurs, the sequence is
strictly ascending in 1-hour steps, and its length is
`latest_valid - earliest_valid + 1` **clamped at zero** — the unclamped
length formula of the original claim fails whenever
`latest_valid < earliest_valid` (see the counterexample). -/
theorem coverage_calculator_range (met : List String) (s0 : Int) (rest : List Int)
    (hp : parseAllMet met = some (s0 :: rest)) :
    get_date_range_ctrl met =
      Except.ok (hourRange (rest.foldl min s0 + 12) ((rest.map (· + 5)).foldl max (s0 + 5))) ∧
    get_date_range_prep met =
      Except.ok (hourRange (rest.foldl min s0 + 12) ((rest.map (· + 5)).foldl max (s0 + 5))) ∧
    (rest.foldl min s0 ∈ s0 :: rest ∧ ∀ x ∈ s0 :: rest, rest.foldl min s0 ≤ x) ∧
    ((rest.map (· + 5)).foldl max (s0 + 5) ∈ (s0 :: rest).map (· + 5) ∧
      ∀ x ∈ (s0 :: rest).map (· + 5), x ≤ (rest.map (· + 5)).foldl max (s0 + 5)) ∧
    (∀ t : Int, t ∈ hourRange (rest.foldl min s0 + 12) ((rest.map (· + 5)).foldl max (s0 + 5)) ↔
      rest.foldl min s0 + 12 ≤ t ∧ t ≤ (rest.map (· + 5)).foldl max (s0 + 5)) ∧
    List.Chain' (fun x y => y = x + 1)
      (hourRange (rest.foldl min s0 + 12) ((rest.map (· + 5)).foldl max (s0 + 5))) ∧
    List.Pairwise (· < ·)
      (hourRange (rest.foldl min s0 + 12) ((rest.map (· + 5)).foldl max (s0 + 5))) ∧
    (hourRange (rest.foldl min s0 + 12) ((rest.map (· + 5)).foldl max (s0 + 5))).length =
      ((rest.map (· + 5)).foldl max (s0 + 5) + 1 - (rest.foldl min s0 + 12)).toNat ∧
    (rest.foldl min s0 + 12 ≤ (rest.map (· + 5)).foldl max (s0 + 5) →
      ((hourRange (rest.foldl min s0 + 12) ((rest.map (· + 5)).foldl max (s0 + 5))).length : Int) =
        (rest.map (· + 5)).foldl max (s0 + 5) - (rest.foldl min s0 + 12) + 1) := by
  refine ⟨?_, ?_, foldl_min_spec s0 rest, ?_, fun t => mem_hourRange t _ _,
    chain'_hourRange _ _, pairwise_lt_hourRange _ _, length_hourRange _ _, ?_⟩
  · simp [get_date_range_ctrl, hp, pyMin, pyMax]
  · simp [get_date_range_prep, hp, pyMin, pyMax]
  · simpa using foldl_max_spec (s0 + 5) (rest.map (· + 5))
  · intro h
    rw [length_hourRange]
    omega

theorem coverage_calculator_range_witness :
    parseAllMet exMetFiles = some ((433440 : Int) :: [433446, 433452]) ∧
    get_date_range_ctrl exMetFiles = Except.ok (hourRange 433452 433457) ∧
    get_date_range_prep exMetFiles = Except.ok (hourRange 433452 433457) ∧
    (hourRange 433452 433457).length = ((433457 : Int) + 1 - 433452).toNat ∧
    ((433452 : Int) ≤ 433457 →
      ((hourRange 433452 433457).length : Int) = 433457 - 433452 + 1) := by
  have h := coverage_calculator_range exMetFiles 433440 [433446, 433452] (by rfl)
  exact ⟨by rfl, h.1, h.2.1, h.2.2.2.2.2.2.2.1, h.2.2.2.2.2.2.2.2⟩

/-- C1 counterexample: one parseable artifact (2020-06-14 12 UTC, new
naming, nominal hour 442260).  The calculator returns the empty sequence
(length 0), but the claimed length `latest_valid - earliest_valid + 1` is
`(442260 + 5) - (442260 + 12) + 1 = -6`. -/
theorem coverage_length_formula_cex :
    get_date_range_ctrl ["20200614_12-17_hrrr"] = Except.ok [] ∧
    parseAllMet ["20200614_12-17_hrrr"] = some [442260] ∧
    ¬ ((([] : List Int).length : Int) = ((442260 : Int) + 5) - (442260 + 12) + 1) :=
  ⟨rfl, rfl, by decide⟩

/-- C6 (amended): on the empty artifact list, `HYSPLIT_Controller`'s
`get_date_range` returns the empty sequence without raising, while the
duplicated `HYSPLIT_Prep` variant raises `ValueError` from `min([])`. -/
theorem coverage_empty_input :
    get_date_range_ctrl [] = Except.ok [] ∧
    get_date_range_prep [] = Except.error "ValueError: min() arg is an empty sequence" :=
  ⟨rfl, rfl⟩

/-- C6 counterexample: the `HYSPLIT_Prep` variant of the Coverage
Calculator raises (rather than returning an empty sequence) on the empty
input. -/
theorem coverage_empty_input_cex :
    get_date_range_prep [] = Except.error "ValueError: min() arg is an empty sequence" :=
  rfl

/-! ## Claim theorems: Parallel Job Executor -/

/-- C3 (confirmed).  `run_hysplit_in_dir` takes its success branch (the
`[END]` log line and the `"OK"` 4-tuple) iff the CONTROL file existed, the
subprocess exited with code 0, and the declared output file exists with
size strictly greater than 0; exit code 0 with a 0-byte output takes the
failure branch (`[FAIL/END]`), and a non-empty output under 500 bytes is
still a success, flagged with the small-output warning. -/
theorem executor_success_classification (j : JobEnv) :
    (RunLog.endOk 0 ∈ (run_hysplit_in_dir j).2 ↔
      j.ctl_exists = true ∧ j.outcome = SubOutcome.exited 0 ∧
        ∃ n, j.outfile_size = some n ∧ 0 < n) ∧
    (RunLog.endOk 0 ∈ (run_hysplit_in_dir j).2 →
      (run_hysplit_in_dir j).1 = RunResult.four j.name j.name 0 "OK") ∧
    (j.ctl_exists = true → j.outcome = SubOutcome.exited 0 → j.outfile_size = some 0 →
      RunLog.endOk 0 ∉ (run_hysplit_in_dir j).2 ∧
      RunLog.endFail 0 ∈ (run_hysplit_in_dir j).2) ∧
    (∀ n, j.ctl_exists = true → j.outcome = SubOutcome.exited 0 → j.outfile_size = some n → 0 < n → n < 500 →
      RunLog.endOk 0 ∈ (run_hysplit_in_dir j).2 ∧
      RunLog.warnSmall n ∈ (run_hysplit_in_dir j).2 ∧
      (run_hysplit_in_dir j).1 = RunResult.four j.name j.name 0 "OK") := by
  obtain ⟨name, ctl, oc, osz, serr, mtxt⟩ := j
  rcases ctl with _ | _
  · simp [run_hysplit_in_dir]
  rcases oc with _ | msg | rc
  · simp [run_hysplit_in_dir]
  · simp [run_hysplit_in_dir]
  rcases osz with _ | n
  · simp [run_hysplit_in_dir]
  by_cases hrc : rc = 0
  · subst hrc
    by_cases hn : 0 < n
    · by_cases h5 : n < 500
      · rcases mtxt with _ | m <;> simp [run_hysplit_in_dir, hn, h5] <;> omega
      · rcases mtxt with _ | m <;> simp [run_hysplit_in_dir, hn, h5] <;> omega
    · have hn0 : n = 0 := by omega
      subst hn0
      simp [run_hysplit_in_dir]
  · simp [run_hysplit_in_dir, hrc]

theorem executor_success_classification_witness :
    RunLog.endOk 0 ∈ (run_hysplit_in_dir exJobOk).2 ∧
    (run_hysplit_in_dir exJobOk).1 =
      RunResult.four "ECC_20190613_12" "ECC_20190613_12" 0 "OK" ∧
    RunLog.warnSmall 300 ∈ (run_hysplit_in_dir exJobOk).2 := by
  have h := executor_success_classification exJobOk
  exact ⟨h.1.mpr ⟨rfl, rfl, 300, rfl, by decide⟩,
    h.2.1 (h.1.mpr ⟨rfl, rfl, 300, rfl, by decide⟩),
    (h.2.2.2 300 rfl rfl rfl (by decide) (by decide)).2.1⟩

/-- C2 (code bug, at the failing input): the timeout path of
`run_hysplit_in_dir` returns a 3-tuple while `HysplitRunner`'s collection
loop unpacks every result into four variables, so a batch with one
successful job and one timed-out job aborts with `ValueError` before the
sibling's result is processed and the aggregate succeeded/failed counts
are never produced; the same batch without the timed-out job aggregates
fine. -/
theorem runner_timeout_aborts_batch :
    HysplitRunner_agg [exJobOk, exJobTimeout] =
      Except.error "ValueError: not enough values to unpack (expected 4, got 3)" ∧
    HysplitRunner_agg [exJobOk] = Except.ok (1, 0) ∧
    run_hysplit_in_dir exJobTimeout =
      (RunResult.three "PAO_20190613_13" 124 "Timeout after 600s",
        [RunLog.startLine, RunLog.timeoutLine]) :=
  ⟨rfl, rfl, rfl⟩

theorem pySlice_clamp (xs : List String) (a b : Nat) :
    pySlice xs a (min b xs.length) = pySlice xs a b := by
  unfold pySlice
  rw [List.take_eq_take]
  simp only [List.length_drop]
  omega

theorem pySlice_ne_nil (xs : List String) (a b : Nat)
    (ha : a < xs.length) (hab : a < b) : pySlice xs a b ≠ [] := by
  unfold pySlice
  intro h
  rcases List.take_eq_nil_iff.mp h with h0 | h0
  · omega
  · rw [List.drop_eq_nil_iff] at h0
    omega

theorem pySlice_rotate (xs : List String) (c ws step : Nat) (hsw : step ≤ ws) :
    (pySlice xs c (c + ws)).drop step ++ pySlice xs (c + step + (ws - step)) (c + step + ws) =
      pySlice xs (c + step) (c + step + ws) := by
  unfold pySlice
  have h1 : c + ws - c = ws := by omega
  have h2 : c + step + ws - (c + step) = ws := by omega
  have h3 : c + step + (ws - step) = c + ws := by omega
  have h4 : c + step + ws - (c + step + (ws - step)) = step := by omega
  rw [h1, h2, h4, h3, List.drop_take, List.drop_drop]
  conv_rhs => rw [show ws = (ws - step) + step by omega, List.take_add]
  rw [List.drop_drop, h3]

theorem skytapLoop_mono (urls : List String) (ws step : Nat) :
    ∀ (fuel : Nat) (s sf : LoopState) (tr : List (Nat × List String)),
      skytapLoop urls ws step fuel s = some (sf, tr) →
      ∀ p ∈ tr, s.current_idx ≤ p.1 := by
  intro fuel
  induction fuel with
  | zero => intro s sf tr h; exact absurd h (by simp [skytapLoop])
  | succ f ih =>
    intro s sf tr h
    simp only [skytapLoop] at h
    split at h
    · obtain ⟨rfl, rfl⟩ := Prod.mk.injEq .. ▸ (Option.some.injEq .. ▸ h)
      intro p hp
      simp at hp
      simp [hp]
    · split at h
      · obtain ⟨rfl, rfl⟩ := Prod.mk.injEq .. ▸ (Option.some.injEq .. ▸ h)
        intro p hp
        simp at hp
        simp [hp]
      · split at h
        · exact absurd h (by simp)
        · rename_i sf' tr' heq
          obtain ⟨rfl, rfl⟩ := Prod.mk.injEq .. ▸ (Option.some.injEq .. ▸ h)
          intro p hp
          rcases List.mem_cons.mp hp with rfl | hp'
          · simp
          · have := ih _ _ _ heq p hp'
            simp only [] at this
            omega

theorem skytapLoop_inv (urls : List String) (ws step : Nat) (hsw : step ≤ ws) :
    ∀ (fuel : Nat) (s sf : LoopState) (tr : List (Nat × List String)),
      s.on_disk = pySlice urls s.current_idx (s.current_idx + ws) →
      skytapLoop urls ws step fuel s = some (sf, tr) →
      ∀ p ∈ tr, p.2 = pySlice urls p.1 (p.1 + ws) := by
  intro fuel
  induction fuel with
  | zero => intro s sf tr _ h; exact absurd h (by simp [skytapLoop])
  | succ f ih =>
    intro s sf tr hinv h
    simp only [skytapLoop] at h
    split at h
    · obtain ⟨rfl, rfl⟩ := Prod.mk.injEq .. ▸ (Option.some.injEq .. ▸ h)
      intro p hp
      simp at hp
      simp [hp, hinv]
    · split at h
      · obtain ⟨rfl, rfl⟩ := Prod.mk.injEq .. ▸ (Option.some.injEq .. ▸ h)
        intro p hp
        simp at hp
        simp [hp, hinv]
      · split at h
        · exact absurd h (by simp)
        · rename_i sf' tr' heq
          obtain ⟨rfl, rfl⟩ := Prod.mk.injEq .. ▸ (Option.some.injEq .. ▸ h)
          intro p hp
          rcases List.mem_cons.mp hp with rfl | hp'
          · simpa using hinv
          · refine ih _ _ _ ?_ heq p hp'
            simp only [hinv]
            exact pySlice_rotate urls s.current_idx ws step hsw

theorem skytapLoop_term (urls : List String) (ws step : Nat)
    (hs : 1 ≤ step) (hsw : step ≤ ws) :
    ∀ (fuel : Nat) (s : LoopState),
      1 ≤ fuel →
      urls.length ≤ s.current_idx + (fuel - 1) * step + ws →
      ∃ sf tr, skytapLoop urls ws step fuel s = some (sf, tr) ∧
        sf.persisted = urls.length ∧ 1 ≤ tr.length ∧ tr.length ≤ fuel := by
  intro fuel
  induction fuel with
  | zero => intro s h1 _; omega
  | succ f ih =>
    intro s _ hbound
    by_cases hdone : urls.length ≤ s.current_idx + ws
    · refine ⟨{ s with persisted := urls.length }, [(s.current_idx, s.on_disk)], ?_, rfl, by simp, by simp⟩
      simp only [skytapLoop]
      rw [if_pos hdone]
    · have hf : 1 ≤ f := by
        rcases Nat.eq_zero_or_pos f with h0 | h0
        · subst h0; simp at hbound; omega
        · exact h0
      have hne : ¬ (pySlice urls (s.current_idx + step + (ws - step)) (s.current_idx + step + ws)).isEmpty = true := by
        rw [List.isEmpty_iff]
        apply pySlice_ne_nil
        · omega
        · omega
      obtain ⟨sf, tr, heq, hpers, htr1, htr2⟩ :=
        ih { current_idx := s.current_idx + step,
             on_disk := s.on_disk.drop step ++
               pySlice urls (s.current_idx + step + (ws - step)) (s.current_idx + step + ws),
             persisted := s.current_idx + step }
          hf (by
            have : f - 1 + 1 = f := by omega
            have hb : urls.length ≤ s.current_idx + (f - 1) * step + step + ws := by
              have h2 : (f + 1 - 1) * step = (f - 1) * step + step := by
                rw [show f + 1 - 1 = (f - 1) + 1 by omega, Nat.succ_mul]
              omega
            simp only []
            omega)
      refine ⟨sf, (s.current_idx, s.on_disk) :: tr, ?_, hpers, by simp, by simp; omega⟩
      simp only [skytapLoop]
      rw [if_neg hdone, if_neg hne, heq]

theorem ceil_fuel_bound (N ws step : Nat) (hN : 1 ≤ N) (hs : 1 ≤ step) (hsw : step ≤ ws) :
    1 ≤ (N + step - 1) / step ∧ N ≤ 0 + ((N + step - 1) / step - 1) * step + ws := by
  have hq := Nat.div_add_mod (N + step - 1) step
  have hr : (N + step - 1) % step < step := Nat.mod_lt _ (by omega)
  rcases hq0 : (N + step - 1) / step with _ | q'
  · rw [hq0, Nat.mul_zero] at hq
    omega
  · rw [hq0] at hq
    refine ⟨by omega, ?_⟩
    rw [Nat.succ_sub_one]
    have hqq : step * (q' + 1) = step * q' + step := by ring
    rw [hqq] at hq
    have he : N + step - 1 + 1 = N + step := by omega
    have hgoal : N ≤ step * q' + ws := by linarith
    linarith [Nat.mul_comm q' step]

/-- C5 (confirmed).  With `N = urls.length ≥ 1`, `window_size ≥ 1`,
`1 ≤ step ≤ window_size`, the control loop started from cursor 0 finishes
within `ceil(N / step)` cycles (fuel), ends in the DONE branch persisting
`cursor = N`, and runs at least one PROCESS phase.  Concretely, for
`N = 10`, `window_size = 6`, `step = 4`: it processes window `[0, 6)`,
advances the cursor to 4, processes window `[4, 10)`, and terminates with
the cursor persisted as 10. -/
theorem window_loop_termination (urls : List String) (ws step : Nat)
    (hN : 1 ≤ urls.length) (hw : 1 ≤ ws) (hs : 1 ≤ step) (hsw : step ≤ ws) :
    (∃ sf tr, skytapMain urls ws step 0 ((urls.length + step - 1) / step) = some (sf, tr) ∧
      sf.persisted = urls.length ∧ 1 ≤ tr.length ∧
      tr.length ≤ (urls.length + step - 1) / step) ∧
    skytapMain scenarioUrls 6 4 0 3 =
      some ({ current_idx := 4, on_disk := ["u4", "u5", "u6", "u7", "u8", "u9"], persisted := 10 },
        [(0, ["u0", "u1", "u2", "u3", "u4", "u5"]), (4, ["u4", "u5", "u6", "u7", "u8", "u9"])]) := by
  constructor
  · have hinit : mainInit urls ws 0 =
        { current_idx := 0, persisted := 0,
          first_batch := pySlice urls 0 (min ws urls.length) } := by
      simp [mainInit]
    have hfb0 : pySlice urls 0 (min ws urls.length) ≠ [] := by
      apply pySlice_ne_nil
      · omega
      · omega
    obtain ⟨h1, h2⟩ := ceil_fuel_bound urls.length ws step hN hs hsw
    obtain ⟨sf, tr, heq, hpers, htr1, htr2⟩ :=
      skytapLoop_term urls ws step hs hsw ((urls.length + step - 1) / step)
        { current_idx := 0, on_disk := pySlice urls 0 (min ws urls.length), persisted := 0 }
        h1 (by simpa using h2)
    refine ⟨sf, tr, ?_, hpers, htr1, htr2⟩
    simp only [skytapMain, hinit, List.isEmpty_iff]
    rw [if_neg hfb0]
    exact heq
  · rfl

/-- C10 (confirmed).  Window-contents invariant: in every recorded PROCESS
phase `(idx, window)` of a run of `main` (any starting cursor), the files
on disk are exactly the slice
`all_urls[idx : min(idx + window_size, total_files)]`; the rotation (drop
the oldest `step`, append the freshly downloaded batch) preserves this. -/
theorem window_contents_invariant (urls : List String) (ws step saved fuel : Nat)
    (hsw : step ≤ ws) (sf : LoopState) (tr : List (Nat × List String))
    (hrun : skytapMain urls ws step saved fuel = some (sf, tr)) :
    ∀ p ∈ tr, p.2 = pySlice urls p.1 (min (p.1 + ws) urls.length) := by
  intro p hp
  simp only [skytapMain] at hrun
  by_cases hemp : (mainInit urls ws saved).first_batch.isEmpty = true
  · rw [if_pos hemp] at hrun
    obtain ⟨-, rfl⟩ := Prod.mk.injEq .. ▸ (Option.some.injEq .. ▸ hrun)
    exact absurd hp (by simp)
  · rw [if_neg hemp] at hrun
    have hfb : (mainInit urls ws saved).first_batch =
        pySlice urls (mainInit urls ws saved).current_idx
          (min ((mainInit urls ws saved).current_idx + ws) urls.length) := rfl
    have hinv : (⟨(mainInit urls ws saved).current_idx, (mainInit urls ws saved).first_batch,
        (mainInit urls ws saved).persisted⟩ : LoopState).on_disk =
        pySlice urls (mainInit urls ws saved).current_idx
          ((mainInit urls ws saved).current_idx + ws) := by
      rw [show (⟨(mainInit urls ws saved).current_idx, (mainInit urls ws saved).first_batch,
        (mainInit urls ws saved).persisted⟩ : LoopState).on_disk =
        (mainInit urls ws saved).first_batch from rfl, hfb, pySlice_clamp]
    have hres := skytapLoop_inv urls ws step hsw fuel _ sf tr hinv hrun p hp
    rw [← pySlice_clamp] at hres
    exact hres

/-- C4 (confirmed).  Resume: with a persisted cursor `0 < c < N` and
auto-confirm, `main` resumes at `current_idx = c`, downloads
`all_urls[c : min(c + window_size, N)]`, leaves the persisted cursor at
`c`, and every later PROCESS phase starts at an index `≥ c` (no cycle
before `c` is re-processed); with a persisted cursor `d ≥ N` the cursor is
reset to 0 (and re-persisted as 0) before processing begins. -/
theorem window_resume (urls : List String) (ws step c fuel : Nat)
    (h0 : 0 < c) (hc : c < urls.length) :
    (mainInit urls ws c).current_idx = c ∧
    (mainInit urls ws c).first_batch = pySlice urls c (min (c + ws) urls.length) ∧
    (mainInit urls ws c).persisted = c ∧
    (∀ sf tr, skytapMain urls ws step c fuel = some (sf, tr) → ∀ p ∈ tr, c ≤ p.1) ∧
    (∀ d, urls.length ≤ d →
      (mainInit urls ws d).current_idx = 0 ∧ (mainInit urls ws d).persisted = 0) := by
  have hci : (mainInit urls ws c).current_idx = c := by
    simp only [mainInit]
    rw [if_pos h0, if_neg (by omega)]
  refine ⟨hci, ?_, ?_, ?_, ?_⟩
  · conv_lhs => rw [show (mainInit urls ws c).first_batch =
      pySlice urls (mainInit urls ws c).current_idx
        (min ((mainInit urls ws c).current_idx + ws) urls.length) from rfl]
    rw [hci]
  · simp only [mainInit]
    rw [if_neg (by omega)]
  · intro sf tr hrun p hp
    simp only [skytapMain] at hrun
    by_cases hemp : (mainInit urls ws c).first_batch.isEmpty = true
    · rw [if_pos hemp] at hrun
      obtain ⟨-, rfl⟩ := Prod.mk.injEq .. ▸ (Option.some.injEq .. ▸ hrun)
      exact absurd hp (by simp)
    · rw [if_neg hemp] at hrun
      have hmono := skytapLoop_mono urls ws step fuel _ sf tr hrun p hp
      rw [show (⟨(mainInit urls ws c).current_idx, (mainInit urls ws c).first_batch,
        (mainInit urls ws c).persisted⟩ : LoopState).current_idx =
        (mainInit urls ws c).current_idx from rfl, hci] at hmono
      exact hmono
  · intro d hd
    rcases Nat.eq_zero_or_pos d with hdz | hdp
    · subst hdz
      constructor <;> simp [mainInit]
    · constructor
      · simp only [mainInit]
        rw [if_pos hdp, if_pos hd]
      · simp only [mainInit]
        rw [if_pos ⟨hdp, hd⟩]

theorem window_loop_termination_witness :
    1 ≤ scenarioUrls.length ∧ (1 : Nat) ≤ 6 ∧ (1 : Nat) ≤ 4 ∧ (4 : Nat) ≤ 6 ∧
    ((∃ sf tr, skytapMain scenarioUrls 6 4 0 ((scenarioUrls.length + 4 - 1) / 4) = some (sf, tr) ∧
      sf.persisted = scenarioUrls.length ∧ 1 ≤ tr.length ∧
      tr.length ≤ (scenarioUrls.length + 4 - 1) / 4) ∧
    skytapMain scenarioUrls 6 4 0 3 =
      some ({ current_idx := 4, on_disk := ["u4", "u5", "u6", "u7", "u8", "u9"], persisted := 10 },
        [(0, ["u0", "u1", "u2", "u3", "u4", "u5"]), (4, ["u4", "u5", "u6", "u7", "u8", "u9"])])) :=
  ⟨by decide, by decide, by decide, by decide,
    window_loop_termination scenarioUrls 6 4 (by decide) (by decide) (by decide) (by decide)⟩

theorem window_contents_invariant_witness :
    (4 : Nat) ≤ 6 ∧
    ∀ p ∈ [((0 : Nat), ["u0", "u1", "u2", "u3", "u4", "u5"]),
           ((4 : Nat), ["u4", "u5", "u6", "u7", "u8", "u9"])],
      p.2 = pySlice scenarioUrls p.1 (min (p.1 + 6) scenarioUrls.length) :=
  ⟨by decide,
    window_contents_invariant scenarioUrls 6 4 0 3 (by decide)
      { current_idx := 4, on_disk := ["u4", "u5", "u6", "u7", "u8", "u9"], persisted := 10 }
      [(0, ["u0", "u1", "u2", "u3", "u4", "u5"]), (4, ["u4", "u5", "u6", "u7", "u8", "u9"])] rfl⟩

theorem window_resume_witness :
    0 < 4 ∧ 4 < scenarioUrls.length ∧
    ((mainInit scenarioUrls 6 4).current_idx = 4 ∧
     (mainInit scenarioUrls 6 4).first_batch =
       pySlice scenarioUrls 4 (min (4 + 6) scenarioUrls.length) ∧
     (mainInit scenarioUrls 6 4).persisted = 4 ∧
     (∀ sf tr, skytapMain scenarioUrls 6 4 4 3 = some (sf, tr) → ∀ p ∈ tr, 4 ≤ p.1) ∧
     (∀ d, scenarioUrls.length ≤ d →
       (mainInit scenarioUrls 6 d).current_idx = 0 ∧ (mainInit scenarioUrls 6 d).persisted = 0)) :=
  ⟨by decide, by decide, window_resume scenarioUrls 6 4 4 3 (by decide) (by decide)⟩

theorem insertLe_ne_nil (x : String) (l : List String) : insertLe x l ≠ [] := by
  cases l with
  | nil => simp [insertLe]
  | cons y ys =>
    simp only [insertLe]
    split <;> simp

theorem pySorted_eq_nil_iff (l : List String) : pySorted l = [] ↔ l = [] := by
  cases l with
  | nil => simp [pySorted]
  | cons x xs =>
    simp only [pySorted]
    constructor
    · intro h
      exact absurd h (insertLe_ne_nil x (pySorted xs))
    · intro h
      exact absurd h (by simp)

theorem mkdirP_mem (fs : FileSys) (d : String) : d ∈ (mkdirP fs d).dirs := by
  unfold mkdirP
  split
  · assumption
  · simp

theorem mkdirP_of_mem (fs : FileSys) (d : String) (h : d ∈ fs.dirs) : mkdirP fs d = fs := by
  unfold mkdirP
  rw [if_pos h]

theorem mkdirP_dirs_count (fs : FileSys) (d : String) (h : d ∉ fs.dirs) :
    (mkdirP fs d).dirs.count d = 1 := by
  unfold mkdirP
  rw [if_neg h]
  simp only [List.count_append]
  rw [List.count_eq_zero_of_not_mem h]
  simp

theorem fsWrite_fsWrite (fs : FileSys) (p : String) (c : ControlFile) :
    fsWrite (fsWrite fs p c) p c = fsWrite fs p c := by
  unfold fsWrite
  simp only [FileSys.mk.injEq, List.filter_append, List.filter_filter, true_and]
  have h1 : (List.filter (fun a => decide (a.1 ≠ p) && decide (a.1 ≠ p)) fs.files) =
      List.filter (fun e => decide (e.1 ≠ p)) fs.files := by
    congr 1
    funext e
    by_cases h : e.1 = p <;> simp [h]
  have h2 : List.filter (fun e => decide (e.1 ≠ p)) [(p, c)] = [] := by simp
  rw [h1, h2, List.append_nil]

theorem mkdirP_files (fs : FileSys) (d : String) : (mkdirP fs d).files = fs.files := by
  unfold mkdirP
  split <;> rfl

/-- C9 (confirmed).  Materializing the same (site, time-point) pair twice
(`make_run_dir` + `write_control`, repeated) succeeds both times
(`mkdir(exist_ok=True)` and mode-`"w"` truncation never raise on the
pre-existing directory/file), produces the same filesystem (the descriptor
is overwritten with identical content), and leaves exactly one run
directory and exactly one descriptor entry for the pair. -/
theorem materializer_idempotent (fs : FileSys) (s : SiteCfg) (hcfg : HysplitCfg)
    (met_listing : List String) (dt : Int)
    (hmet : metFilter met_listing ≠ [])
    (hdir : runName s.name dt ∉ fs.dirs) :
    ∃ fs1, materialize fs s hcfg met_listing dt = Except.ok fs1 ∧
      materialize fs1 s hcfg met_listing dt = Except.ok fs1 ∧
      fs1.dirs.count (runName s.name dt) = 1 ∧
      (fs1.files.map Prod.fst).count (runName s.name dt ++ "/CONTROL") = 1 := by
  have hne : ¬ ((metFilter met_listing).isEmpty = true) := by
    rw [List.isEmpty_iff]
    exact hmet
  obtain ⟨cf, hcf⟩ : ∃ cf, write_control (runName s.name dt) dt s.lat s.lon s.start_height
      s.duration hcfg.met_dir met_listing hcfg.top_of_model hcfg.vert_motion =
      Except.ok cf := by
    unfold write_control
    rw [if_neg hne]
    exact ⟨_, rfl⟩
  have hmm : mkdirP (mkdirP fs (runName s.name dt)) (runName s.name dt) =
      mkdirP fs (runName s.name dt) :=
    mkdirP_of_mem _ _ (mkdirP_mem fs (runName s.name dt))
  refine ⟨fsWrite (mkdirP fs (runName s.name dt))
      (runName s.name dt ++ "/CONTROL") cf, ?_, ?_, ?_, ?_⟩
  · unfold materialize make_run_dir_fs write_control_fs
    simp only [hcf, hmm]
  · unfold materialize make_run_dir_fs write_control_fs
    simp only [hcf]
    have hmem1 : runName s.name dt ∈
        (fsWrite (mkdirP fs (runName s.name dt)) (runName s.name dt ++ "/CONTROL") cf).dirs :=
      mkdirP_mem fs (runName s.name dt)
    rw [mkdirP_of_mem _ _ hmem1, mkdirP_of_mem _ _ hmem1, fsWrite_fsWrite]
  · exact mkdirP_dirs_count fs (runName s.name dt) hdir
  · show ((fsWrite (mkdirP fs (runName s.name dt)) (runName s.name dt ++ "/CONTROL") cf).files.map
      Prod.fst).count (runName s.name dt ++ "/CONTROL") = 1
    unfold fsWrite
    simp only [mkdirP_files, List.map_append, List.count_append]
    have h0 : ((fs.files.filter fun e => e.1 ≠ runName s.name dt ++ "/CONTROL").map
        Prod.fst).count (runName s.name dt ++ "/CONTROL") = 0 := by
      rw [List.count_eq_zero]
      intro hmem
      obtain ⟨e, he, hfst⟩ := List.mem_map.mp hmem
      have := (List.mem_filter.mp he).2
      simp only [decide_eq_true_eq] at this
      exact this hfst
    rw [h0]
    simp

theorem sorted_head_le (v0 : Int) (rest : List Int) (h : List.Sorted (· ≤ ·) (v0 :: rest)) :
    ∀ x ∈ v0 :: rest, v0 ≤ x := by
  intro x hx
  rcases List.mem_cons.mp hx with rfl | hx'
  · exact le_refl x
  · exact (List.sorted_cons.mp h).1 x hx'

theorem sorted_le_getLastD (rest : List Int) :
    ∀ v0, List.Sorted (· ≤ ·) (v0 :: rest) → ∀ x ∈ v0 :: rest, x ≤ rest.getLastD v0 := by
  induction rest with
  | nil => intro v0 _ x hx; simp at hx; simp [hx]
  | cons r rs ih =>
    intro v0 h x hx
    rw [List.getLastD_cons]
    have h' : List.Sorted (· ≤ ·) (r :: rs) := (List.sorted_cons.mp h).2
    rcases List.mem_cons.mp hx with rfl | hx'
    · calc x ≤ r := (List.sorted_cons.mp h).1 r (by simp)
        _ ≤ rs.getLastD r := ih r h' r (by simp)
    · exact ih r h' x hx'

theorem write_control_ok (run_dir : String) (start_time : Int) (lat lon height_m : Rat)
    (duration_h : Int) (met_dir : String) (met_listing : List String)
    (top_agl_m : Rat) (vert_motion : Int) (hmet : metFilter met_listing ≠ []) :
    write_control run_dir start_time lat lon height_m duration_h met_dir met_listing
      top_agl_m vert_motion =
      Except.ok (controlFor run_dir start_time lat lon height_m duration_h met_dir
        met_listing top_agl_m vert_motion) := by
  unfold write_control controlFor
  rw [if_neg (by rw [List.isEmpty_iff]; exact hmet)]

theorem writeJobs_ok (temp_root : String) (s : SiteCfg) (hcfg : HysplitCfg)
    (met_listing : List String) (hmet : metFilter met_listing ≠ []) :
    ∀ l : List Int, writeJobs temp_root s hcfg met_listing l =
      Except.ok (l.map fun dt => (runName s.name dt,
        controlFor (temp_root ++ "/" ++ runName s.name dt) dt s.lat s.lon s.start_height
          s.duration hcfg.met_dir met_listing hcfg.top_of_model hcfg.vert_motion)) := by
  intro l
  induction l with
  | nil => rfl
  | cons dt ds ih =>
    rw [writeJobs, write_control_ok _ _ _ _ _ _ _ _ _ _ hmet, ih]
    rfl

theorem makeRunDirsGo_ok (temp_root : String) (hcfg : HysplitCfg)
    (met_listing : List String) (v0 : Int) (rest : List Int)
    (hmet : metFilter met_listing ≠ []) :
    ∀ ss : List SiteCfg,
      (∀ s ∈ ss, (strptimeDate s.start_date).isSome ∧ (strptimeDate s.end_date).isSome) →
      makeRunDirsGo temp_root hcfg met_listing (v0 :: rest) v0 (rest.getLastD v0) ss =
        Except.ok (ss.flatMap fun s =>
          match strptimeDate s.start_date, strptimeDate s.end_date with
          | some sd, some ed =>
            if sd ≤ v0 ∧ rest.getLastD v0 ≤ ed then
              (v0 :: rest).map fun dt => (runName s.name dt,
                controlFor (temp_root ++ "/" ++ runName s.name dt) dt s.lat s.lon
                  s.start_height s.duration hcfg.met_dir met_listing hcfg.top_of_model
                  hcfg.vert_motion)
            else []
          | _, _ => []) := by
  intro ss
  induction ss with
  | nil => intro _; rfl
  | cons s ss ih =>
    intro hd
    obtain ⟨h1, h2⟩ := hd s (by simp)
    obtain ⟨sd, hsd⟩ := Option.isSome_iff_exists.mp h1
    obtain ⟨ed, hed⟩ := Option.isSome_iff_exists.mp h2
    simp only [makeRunDirsGo, hsd, hed, List.flatMap_cons]
    by_cases hq : sd ≤ v0 ∧ rest.getLastD v0 ≤ ed
    · rw [if_pos hq, writeJobs_ok temp_root s hcfg met_listing hmet,
        ih (fun x hx => hd x (by simp [hx]))]
      rw [if_pos hq]
    · rw [if_neg hq, ih (fun x hx => hd x (by simp [hx]))]
      rw [if_neg hq, List.nil_append]

/-- C7 (confirmed).  For a non-empty ascending `valid_datetimes` list
(`v0 :: rest`), with all site date ranges parseable and at least one
artifact matching the met filter, `make_run_dirs` creates exactly, for
each site whose `[start_date, end_date]` contains
`[valid_datetimes[0], valid_datetimes[-1]]` (= `[min, max]` by the last
two conjuncts), one job per ValidTimePoint, in a working directory named
`{site}_{YYYYMMDD}_{HH}` (`runName`), and no job for any other site. -/
theorem materializer_jobs (temp_root : String) (sites : List SiteCfg) (hcfg : HysplitCfg)
    (met_listing : List String) (v0 : Int) (rest : List Int)
    (hsort : List.Sorted (· ≤ ·) (v0 :: rest))
    (hdates : ∀ s ∈ sites, (strptimeDate s.start_date).isSome ∧ (strptimeDate s.end_date).isSome)
    (hmet : metFilter met_listing ≠ []) :
    make_run_dirs temp_root sites hcfg met_listing (v0 :: rest) =
      Except.ok (sites.flatMap fun s =>
        match strptimeDate s.start_date, strptimeDate s.end_date with
        | some sd, some ed =>
          if sd ≤ v0 ∧ rest.getLastD v0 ≤ ed then
            (v0 :: rest).map fun dt => (runName s.name dt,
              controlFor (temp_root ++ "/" ++ runName s.name dt) dt s.lat s.lon
                s.start_height s.duration hcfg.met_dir met_listing hcfg.top_of_model
                hcfg.vert_motion)
          else []
        | _, _ => []) ∧
    (∀ x ∈ v0 :: rest, v0 ≤ x) ∧
    (∀ x ∈ v0 :: rest, x ≤ rest.getLastD v0) :=
  ⟨makeRunDirsGo_ok temp_root hcfg met_listing v0 rest hmet sites hdates,
    sorted_head_le v0 rest hsort, sorted_le_getLastD rest v0 hsort⟩

theorem materializer_jobs_witness :
    List.Sorted (· ≤ ·) [(442260 : Int), 442261] ∧
    (∀ s ∈ [exSiteA], (strptimeDate s.start_date).isSome ∧ (strptimeDate s.end_date).isSome) ∧
    metFilter ["20200614_12-17_hrrr"] ≠ [] ∧
    (make_run_dirs "Temp_HYSPLIT_Dirs" [exSiteA] exHcfg ["20200614_12-17_hrrr"]
        ((442260 : Int) :: [442261]) =
      Except.ok ([exSiteA].flatMap fun s =>
        match strptimeDate s.start_date, strptimeDate s.end_date with
        | some sd, some ed =>
          if sd ≤ (442260 : Int) ∧ [(442261 : Int)].getLastD 442260 ≤ ed then
            ((442260 : Int) :: [442261]).map fun dt => (runName s.name dt,
              controlFor ("Temp_HYSPLIT_Dirs" ++ "/" ++ runName s.name dt) dt s.lat s.lon
                s.start_height s.duration exHcfg.met_dir ["20200614_12-17_hrrr"]
                exHcfg.top_of_model exHcfg.vert_motion)
          else []
        | _, _ => []) ∧
    (∀ x ∈ (442260 : Int) :: [442261], (442260 : Int) ≤ x) ∧
    (∀ x ∈ (442260 : Int) :: [442261], x ≤ [(442261 : Int)].getLastD 442260)) :=
  ⟨by decide, by decide, by decide,
    materializer_jobs "Temp_HYSPLIT_Dirs" [exSiteA] exHcfg ["20200614_12-17_hrrr"]
      442260 [442261] (by decide) (by decide) (by decide)⟩

theorem writeJobs_err (temp_root : String) (s : SiteCfg) (hcfg : HysplitCfg)
    (met_listing : List String) (hmet : metFilter met_listing = []) (dt : Int) (ds : List Int) :
    writeJobs temp_root s hcfg met_listing (dt :: ds) =
      Except.error ("No ARL data files found in " ++ hcfg.met_dir ++
        ". HYSPLIT cannot run without met data.") := by
  rw [writeJobs]
  unfold write_control
  rw [if_pos (by rw [List.isEmpty_iff]; exact hmet)]

theorem makeRunDirsGo_err (temp_root : String) (hcfg : HysplitCfg)
    (met_listing : List String) (v0 : Int) (rest : List Int)
    (hmet : metFilter met_listing = []) :
    ∀ ss : List SiteCfg,
      (∀ s ∈ ss, (strptimeDate s.start_date).isSome ∧ (strptimeDate s.end_date).isSome) →
      (∃ s ∈ ss, ∃ sd ed, strptimeDate s.start_date = some sd ∧
        strptimeDate s.end_date = some ed ∧ sd ≤ v0 ∧ rest.getLastD v0 ≤ ed) →
      ∃ e, makeRunDirsGo temp_root hcfg met_listing (v0 :: rest) v0 (rest.getLastD v0) ss =
        Except.error e := by
  intro ss
  induction ss with
  | nil => rintro _ ⟨s, hs, -⟩; exact absurd hs (by simp)
  | cons s ss ih =>
    rintro hd ⟨q, hq, sd', ed', hsd', hed', hle1, hle2⟩
    obtain ⟨h1, h2⟩ := hd s (by simp)
    obtain ⟨sd, hsd⟩ := Option.isSome_iff_exists.mp h1
    obtain ⟨ed, hed⟩ := Option.isSome_iff_exists.mp h2
    simp only [makeRunDirsGo, hsd, hed]
    by_cases hcond : sd ≤ v0 ∧ rest.getLastD v0 ≤ ed
    · rw [if_pos hcond, writeJobs_err temp_root s hcfg met_listing hmet v0 rest]
      exact ⟨_, rfl⟩
    · rw [if_neg hcond]
      apply ih (fun x hx => hd x (by simp [hx]))
      rcases List.mem_cons.mp hq with rfl | hq'
      · rw [hsd] at hsd'
        rw [hed] at hed'
        obtain rfl := Option.some.injEq .. ▸ hsd'
        obtain rfl := Option.some.injEq .. ▸ hed'
        exact absurd ⟨hle1, hle2⟩ hcond
      · exact ⟨q, hq', sd', ed', hsd', hed', hle1, hle2⟩

/-- C8 (amended).  `write_control` fails with the missing-input-data error
(`FileNotFoundError`) iff no file in the input-directory listing matches
the model's naming filter `'hrrr'`; but the error is **not** confined to
one site: it propagates uncaught out of `make_run_dirs`, aborting job
creation for the whole cycle whenever any qualifying site exists (see the
counterexample). -/
theorem write_control_missing_met (run_dir : String) (start_time : Int)
    (lat lon height_m : Rat) (duration_h : Int) (met_dir : String)
    (met_listing : List String) (top_agl_m : Rat) (vert_motion : Int) :
    ((∃ e, write_control run_dir start_time lat lon height_m duration_h met_dir met_listing
        top_agl_m vert_motion = Except.error e) ↔
      met_listing.filter (fun mf => strContains mf "hrrr") = []) ∧
    (∀ (temp_root : String) (sites : List SiteCfg) (hcfg : HysplitCfg) (v0 : Int)
        (rest : List Int),
      met_listing.filter (fun mf => strContains mf "hrrr") = [] →
      (∀ s ∈ sites, (strptimeDate s.start_date).isSome ∧ (strptimeDate s.end_date).isSome) →
      (∃ s ∈ sites, ∃ sd ed, strptimeDate s.start_date = some sd ∧
        strptimeDate s.end_date = some ed ∧ sd ≤ v0 ∧ rest.getLastD v0 ≤ ed) →
      ∃ e, make_run_dirs temp_root sites hcfg met_listing (v0 :: rest) = Except.error e) := by
  constructor
  · constructor
    · rintro ⟨e, he⟩
      by_cases h : (metFilter met_listing).isEmpty = true
      · rw [List.isEmpty_iff] at h
        rwa [← pySorted_eq_nil_iff]
      · unfold write_control at he
        rw [if_neg h] at he
        exact absurd he (by simp)
    · intro h
      unfold write_control
      rw [if_pos (by rw [List.isEmpty_iff, metFilter, h]; rfl)]
      exact ⟨_, rfl⟩
  · intro temp_root sites hcfg v0 rest hflt hdates hqual
    have hmet : metFilter met_listing = [] := by
      rw [metFilter, hflt]
      rfl
    exact makeRunDirsGo_err temp_root hcfg met_listing v0 rest hmet sites hdates hqual

/-- C8 counterexample: with no artifact matching the filter, the
`FileNotFoundError` raised inside `write_control` propagates out of
`make_run_dirs` (there is no handler), so the whole cycle aborts: even
though both registered sites qualify, no job is created for either — the
error is not confined to one site. -/
theorem write_control_missing_met_cex :
    make_run_dirs "Temp_HYSPLIT_Dirs" [exSiteA, exSiteB] exHcfg [] [433452] =
      Except.error "No ARL data files found in ARL_Files. HYSPLIT cannot run without met data." :=
  rfl

theorem write_control_missing_met_witness :
    ((∃ e, write_control "Temp_HYSPLIT_Dirs/AAA_20190613_12" 433452 40 (-105) 10 (-12)
        "ARL_Files" [] 10000 0 = Except.error e) ↔
      ([] : List String).filter (fun mf => strContains mf "hrrr") = []) ∧
    (∃ e, make_run_dirs "Temp_HYSPLIT_Dirs" [exSiteA, exSiteB] exHcfg [] ((433452 : Int) :: []) =
      Except.error e) :=
  ⟨(write_control_missing_met "Temp_HYSPLIT_Dirs/AAA_20190613_12" 433452 40 (-105) 10 (-12)
      "ARL_Files" [] 10000 0).1,
    (write_control_missing_met "Temp_HYSPLIT_Dirs/AAA_20190613_12" 433452 40 (-105) 10 (-12)
      "ARL_Files" [] 10000 0).2 "Temp_HYSPLIT_Dirs" [exSiteA, exSiteB] exHcfg 433452 []
      rfl (by decide)
      ⟨exSiteA, by simp, 429528, 447048, by rfl, by rfl, by decide, by decide⟩⟩

theorem materializer_idempotent_witness :
    metFilter ["20200614_12-17_hrrr"] ≠ [] ∧
    runName exSiteA.name 442260 ∉ (⟨[], []⟩ : FileSys).dirs ∧
    (∃ fs1, materialize ⟨[], []⟩ exSiteA exHcfg ["20200614_12-17_hrrr"] 442260 = Except.ok fs1 ∧
      materialize fs1 exSiteA exHcfg ["20200614_12-17_hrrr"] 442260 = Except.ok fs1 ∧
      fs1.dirs.count (runName exSiteA.name 442260) = 1 ∧
      (fs1.files.map Prod.fst).count (runName exSiteA.name 442260 ++ "/CONTROL") = 1) :=
  ⟨by decide, by decide,
    materializer_idempotent ⟨[], []⟩ exSiteA exHcfg ["20200614_12-17_hrrr"] 442260
      (by decide) (by decide)⟩
